import Mathlib

/-!
# Shallow embedding of the smol-evm-rust core

This file embeds the data containers (`Stack`, `Memory`, `Calldata`,
`ExecutionContext`) and the opcode dispatcher / handlers of the
interpreter (src/evm/stack.rs, memory.rs, calldata.rs, context.rs,
opcodes.rs) and proves the specification's claims about them.

Modelling conventions:
* a 256-bit word (`U256`) is a `Nat`; every operation that wraps in the
  Rust code carries an explicit `% 2 ^ 256`;
* `Vec<u8>` / `Vec<U256>` become `List Nat`; the operand stack stores its
  TOP at the HEAD of the list, mirroring the Rust `Vec` indexed from its
  end (`data[len - 1 - i]` in the source is `data.getD i` here);
* fallible Rust functions returning `Result` become `Except`;
* Rust handlers take `&mut ExecutionContext` and may leave partial
  mutations behind when they early-return an error through `?`; the
  embedding therefore threads the context explicitly and an error carries
  the context as mutated so far: `Except (InstructionError × ExecutionContext) ExecutionContext`;
* `U256::as_usize()` panics when the word exceeds the platform size type;
  the embedding keeps the `Nat` value and theorems that depend on
  representability carry an explicit `< 2 ^ 64` hypothesis.
-/

/-- The modulus of 256-bit machine words. -/
def wordModulus : Nat := 2 ^ 256

/-- Big-endian byte-sequence decoding, as `U256::from_big_endian`. -/
def beDecode (bs : List Nat) : Nat :=
  bs.foldl (fun acc b => acc * 256 + b) 0

/-- Big-endian 32-byte serialisation of a word, as `U256::to_big_endian`:
byte `i` is bits `8*(31-i) .. 8*(31-i)+7`. -/
def beBytes32 (v : Nat) : List Nat :=
  (List.range 32).map (fun i => v / 256 ^ (31 - i) % 256)

/-- Modelled from the spec: the constant `MAX_DEPTH` lives in a `constants`
module that is not part of the sources at hand; the spec fixes the maximum
operand-stack depth at 1024. -/
def MAX_DEPTH : Nat := 1024

/-- Error kinds of the operand stack (stack.rs, `enum StackError`). -/
inductive StackError where
  | StackOverflow
  | StackUnderflow
  | IndexError
  | InvalidStackItem
deriving DecidableEq, Repr

/-- The operand stack (stack.rs, `struct Stack`). `data` keeps the top at
the head; `max_depth` is the field initialised from `MAX_DEPTH`. -/
structure Stack where
  data : List Nat
  max_depth : Nat
deriving DecidableEq, Repr

/-- `Stack::new` (stack.rs). -/
def Stack.new : Stack :=
  ⟨[], MAX_DEPTH⟩

/-- `Stack::push` (stack.rs): refuse when `data.len() >= max_depth`, else
append at the top. -/
def Stack.push (s : Stack) (value : Nat) : Except StackError Stack :=
  if s.data.length ≥ s.max_depth then
    .error .StackOverflow
  else
    .ok ⟨value :: s.data, s.max_depth⟩

/-- `Stack::pop` (stack.rs): error on empty, else remove and return the
top. -/
def Stack.pop (s : Stack) : Except StackError (Nat × Stack) :=
  match s.data with
  | [] => .error .StackUnderflow
  | v :: rest => .ok (v, ⟨rest, s.max_depth⟩)

/-- `Stack::peek` (stack.rs): `data[len - 1 - index]`, which with the
top-at-head representation is index `index` from the head. -/
def Stack.peek (s : Stack) (index : Nat) : Except StackError Nat :=
  if index ≥ s.data.length then
    .error .IndexError
  else
    .ok (s.data.getD index 0)

/-- Exchange of list positions `i` and `j`, as `Vec::swap`. -/
def listSwap (l : List Nat) (i j : Nat) : List Nat :=
  (l.set i (l.getD j 0)).set j (l.getD i 0)

/-- `Stack::swap` (stack.rs): when `n + 1 > data.len()` the source returns
`StackOverflow` (sic); else exchange `data[len-1]` with `data[len-1-n]`,
i.e. head position 0 with position `n`. -/
def Stack.swap (s : Stack) (n : Nat) : Except StackError Stack :=
  if n + 1 > s.data.length then
    .error .StackOverflow
  else
    .ok ⟨listSwap s.data 0 n, s.max_depth⟩

/-- Error kinds of the memory (memory.rs, `enum MemoryError`). -/
inductive MemoryError where
  | MemoryOverflow
  | MemoryAccessError
deriving DecidableEq, Repr

/-- The byte memory (memory.rs, `struct Memory`): a growable byte vector.
Its length is the logical `msize`. -/
structure Memory where
  memory : List Nat
deriving DecidableEq, Repr

/-- `Memory::new` (memory.rs). -/
def Memory.new : Memory :=
  ⟨[]⟩

/-- Write the bytes `bs` into `l` starting at `offset` (the store loops of
memory.rs); positions outside `l` are dropped, as `Vec` indexing would
panic there — callers resize first so this never happens. -/
def writeBytes (l : List Nat) (offset : Nat) (bs : List Nat) : List Nat :=
  match bs with
  | [] => l
  | b :: rest => writeBytes (l.set offset b) (offset + 1) rest

/-- Zero-extension of the byte vector to `required`, as
`Vec::resize(required, 0)` on a shorter vector. -/
def resizeZero (l : List Nat) (required : Nat) : List Nat :=
  if required > l.length then l ++ List.replicate (required - l.length) 0 else l

/-- `Memory::store` (memory.rs): resize to `offset + 32` when needed, then
write the 32 big-endian bytes of `value` at `[offset, offset+32)`. -/
def Memory.store (m : Memory) (offset : Nat) (value : Nat) : Except MemoryError Memory :=
  let required_size := offset + 32
  .ok ⟨writeBytes (resizeZero m.memory required_size) offset (beBytes32 value)⟩

/-- `Memory::load` (memory.rs): when `offset + 32` exceeds the buffer
length return zero, else the big-endian word at `[offset, offset+32)`. -/
def Memory.load (m : Memory) (offset : Nat) : Except MemoryError Nat :=
  let required_size := offset + 32
  if required_size > m.memory.length then
    .ok 0
  else
    .ok (beDecode ((List.range 32).map (fun i => m.memory.getD (offset + i) 0)))

/-- Modelled from the spec: `Memory::size` is called by the MSIZE handler
but missing from memory.rs; the spec says it returns `msize`, the logical
length of the buffer. -/
def Memory.size (m : Memory) : Nat :=
  m.memory.length

/-- Modelled from the spec: `Memory::store_byte` is called by the MSTORE8
handler but missing from memory.rs; the spec says it ensures
`msize ≥ offset+1` and writes the byte at `offset`. -/
def Memory.store_byte (m : Memory) (offset : Nat) (b : Nat) : Memory :=
  ⟨writeBytes (resizeZero m.memory (offset + 1)) offset [b]⟩

/-- Modelled from the spec: `Memory::store_bytes` is called by the
CODECOPY / CALLDATACOPY paths but missing from memory.rs; the spec says it
ensures `msize ≥ offset+len(bs)` and copies `bs` into
`[offset, offset+len(bs))`. -/
def Memory.store_bytes (m : Memory) (offset : Nat) (bs : List Nat) : Memory :=
  ⟨writeBytes (resizeZero m.memory (offset + bs.length)) offset bs⟩

/-- Modelled from the spec: `Memory::load_range` is called by
`set_return_data` but missing from memory.rs; the spec says it returns the
bytes in `[offset, offset+length)`, zero-filled beyond `msize`, without
modifying `msize`. -/
def Memory.load_range (m : Memory) (offset length : Nat) : List Nat :=
  (List.range length).map (fun i => m.memory.getD (offset + i) 0)

/-- The immutable calldata (calldata.rs, `struct Calldata`). -/
structure Calldata where
  data : List Nat
deriving DecidableEq, Repr

/-- `Calldata::new` (calldata.rs). -/
def Calldata.new (data : List Nat) : Calldata :=
  ⟨data⟩

/-- `Calldata::size` (calldata.rs). -/
def Calldata.size (c : Calldata) : Nat :=
  c.data.length

/-- `Calldata::load` (calldata.rs): the big-endian word over the 32-byte
window at `offset`, zero for indices past the end. -/
def Calldata.load (c : Calldata) (offset : Nat) : Nat :=
  beDecode ((List.range 32).map (fun i =>
    if offset + i < c.data.length then c.data.getD (offset + i) 0 else 0))

/-- `Calldata::copy_to_memory` (calldata.rs): gather `length` bytes from
calldata (zero past the end) and store them at `memory_offset`. Always
succeeds. -/
def Calldata.copy_to_memory (c : Calldata) (calldata_offset memory_offset length : Nat)
    (m : Memory) : Memory :=
  let bytes := (List.range length).map (fun i =>
    if calldata_offset + i < c.data.length then c.data.getD (calldata_offset + i) 0 else 0)
  m.store_bytes memory_offset bytes

/-- The 20-byte contract address (context.rs, `type Address`). -/
def Address : Type := List Nat

instance : DecidableEq Address := by
  unfold Address
  infer_instance

/-- The execution context (context.rs, `struct ExecutionContext`). -/
structure ExecutionContext where
  code : List Nat
  stack : Stack
  memory : Memory
  calldata : Calldata
  contractAddress : List Nat
  pc : Nat
  stopped : Bool
  return_data : List Nat
deriving DecidableEq, Repr

/-- `ExecutionContext::new` (context.rs). -/
def ExecutionContext.new (contractAddress : List Nat) (code : List Nat)
    (calldata : List Nat) : ExecutionContext :=
  ⟨code, Stack.new, Memory.new, Calldata.new calldata, contractAddress, 0, false, []⟩

/-- `ExecutionContext::read_code` (context.rs): `num_bytes` bytes starting
at `pc`, zero-padded past the end of `code`; does not move `pc`. -/
def ExecutionContext.read_code (ctx : ExecutionContext) (num_bytes : Nat) : List Nat :=
  (List.range num_bytes).map (fun i =>
    if ctx.pc + i < ctx.code.length then ctx.code.getD (ctx.pc + i) 0 else 0)

/-- `ExecutionContext::stop` (context.rs). -/
def ExecutionContext.stop (ctx : ExecutionContext) : ExecutionContext :=
  { ctx with stopped := true }

/-- `ExecutionContext::set_return_data` (context.rs): halt and snapshot
`memory.load_range(offset, length)` into `return_data`. Always `Ok`. -/
def ExecutionContext.set_return_data (ctx : ExecutionContext) (offset length : Nat) :
    ExecutionContext :=
  { ctx with stopped := true, return_data := ctx.memory.load_range offset length }

/-- Error kinds of the dispatcher (opcodes.rs, `enum InstructionError`). -/
inductive InstructionError where
  | InvalidOpcode
  | StackError (e : StackError)
  | MemoryError (e : MemoryError)
  | InvalidJump
deriving DecidableEq, Repr

/-- Result type of a handler: on success the updated context, on failure
the error together with the context as mutated up to the failing `?`. -/
abbrev HandlerM (α : Type) : Type :=
  Except (InstructionError × ExecutionContext) α

/-- The `ctx.stack_mut().pop().map_err(InstructionError::StackError)?`
pattern of opcodes.rs: pop, wrapping a stack failure, keeping the context
mutations performed so far. -/
def popCtx (ctx : ExecutionContext) : HandlerM (Nat × ExecutionContext) :=
  match ctx.stack.pop with
  | .error e => .error (.StackError e, ctx)
  | .ok (v, s) => .ok (v, { ctx with stack := s })

/-- The `ctx.stack_mut().push(v).map_err(InstructionError::StackError)?`
pattern of opcodes.rs. -/
def pushCtx (ctx : ExecutionContext) (v : Nat) : HandlerM ExecutionContext :=
  match ctx.stack.push v with
  | .error e => .error (.StackError e, ctx)
  | .ok s => .ok { ctx with stack := s }

/-- The `ctx.stack().peek(i).map_err(InstructionError::StackError)?`
pattern of opcodes.rs (read-only, context untouched). -/
def peekCtx (ctx : ExecutionContext) (i : Nat) : HandlerM Nat :=
  match ctx.stack.peek i with
  | .error e => .error (.StackError e, ctx)
  | .ok v => .ok v

/-- The `ctx.stack_mut().swap(n).map_err(InstructionError::StackError)?`
pattern of opcodes.rs. -/
def swapCtx (ctx : ExecutionContext) (n : Nat) : HandlerM ExecutionContext :=
  match ctx.stack.swap n with
  | .error e => .error (.StackError e, ctx)
  | .ok s => .ok { ctx with stack := s }

/-- The square-and-multiply loop of `handleExp` (opcodes.rs): while the
exponent is nonzero, multiply the accumulator in when the low bit is set,
square the running power, shift the exponent right; every multiplication
is `overflowing_mul`, i.e. wraps modulo `2 ^ 256`. -/
def expLoop (result base_pow exp : Nat) : Nat :=
  if exp = 0 then result
  else
    expLoop (if exp % 2 = 1 then result * base_pow % wordModulus else result)
      (base_pow * base_pow % wordModulus) (exp / 2)
termination_by exp
decreasing_by omega

/-- `handleStop` (opcodes.rs). -/
def handleStop (ctx : ExecutionContext) : HandlerM ExecutionContext :=
  let ctx := ctx.stop
  .ok { ctx with pc := ctx.pc + 1 }

/-- `handleAdd` (opcodes.rs): `overflowing_add`. -/
def handleAdd (ctx : ExecutionContext) : HandlerM ExecutionContext := do
  let (b, ctx) ← popCtx ctx
  let (a, ctx) ← popCtx ctx
  let result := (a + b) % wordModulus
  let ctx ← pushCtx ctx result
  .ok { ctx with pc := ctx.pc + 1 }

/-- `handleMul` (opcodes.rs): `overflowing_mul`. -/
def handleMul (ctx : ExecutionContext) : HandlerM ExecutionContext := do
  let (b, ctx) ← popCtx ctx
  let (a, ctx) ← popCtx ctx
  let result := a * b % wordModulus
  let ctx ← pushCtx ctx result
  .ok { ctx with pc := ctx.pc + 1 }

/-- `handleSub` (opcodes.rs): `overflowing_sub`; for `b < 2 ^ 256` the
wrapped difference is `(2 ^ 256 + a - b) % 2 ^ 256`. -/
def handleSub (ctx : ExecutionContext) : HandlerM ExecutionContext := do
  let (b, ctx) ← popCtx ctx
  let (a, ctx) ← popCtx ctx
  let result := (wordModulus + a - b) % wordModulus
  let ctx ← pushCtx ctx result
  .ok { ctx with pc := ctx.pc + 1 }

/-- `handleDiv` (opcodes.rs): zero divisor yields zero. -/
def handleDiv (ctx : ExecutionContext) : HandlerM ExecutionContext := do
  let (b, ctx) ← popCtx ctx
  let (a, ctx) ← popCtx ctx
  let result := if b = 0 then 0 else a / b
  let ctx ← pushCtx ctx result
  .ok { ctx with pc := ctx.pc + 1 }

/-- `handleMod` (opcodes.rs): zero modulus yields zero. -/
def handleMod (ctx : ExecutionContext) : HandlerM ExecutionContext := do
  let (b, ctx) ← popCtx ctx
  let (a, ctx) ← popCtx ctx
  let result := if b = 0 then 0 else a % b
  let ctx ← pushCtx ctx result
  .ok { ctx with pc := ctx.pc + 1 }

/-- `handleExp` (opcodes.rs): pops exponent then base; zero exponent gives
one, zero base (with nonzero exponent) gives zero, else the
square-and-multiply loop. -/
def handleExp (ctx : ExecutionContext) : HandlerM ExecutionContext := do
  let (exponent, ctx) ← popCtx ctx
  let (base, ctx) ← popCtx ctx
  let result :=
    if exponent = 0 then 1
    else if base = 0 then 0
    else expLoop 1 base exponent
  let ctx ← pushCtx ctx result
  .ok { ctx with pc := ctx.pc + 1 }

/-- `handleLt` (opcodes.rs). -/
def handleLt (ctx : ExecutionContext) : HandlerM ExecutionContext := do
  let (b, ctx) ← popCtx ctx
  let (a, ctx) ← popCtx ctx
  let result := if a < b then 1 else 0
  let ctx ← pushCtx ctx result
  .ok { ctx with pc := ctx.pc + 1 }

/-- `handleGt` (opcodes.rs). -/
def handleGt (ctx : ExecutionContext) : HandlerM ExecutionContext := do
  let (b, ctx) ← popCtx ctx
  let (a, ctx) ← popCtx ctx
  let result := if a > b then 1 else 0
  let ctx ← pushCtx ctx result
  .ok { ctx with pc := ctx.pc + 1 }

/-- `handleEq` (opcodes.rs). -/
def handleEq (ctx : ExecutionContext) : HandlerM ExecutionContext := do
  let (b, ctx) ← popCtx ctx
  let (a, ctx) ← popCtx ctx
  let result := if a = b then 1 else 0
  let ctx ← pushCtx ctx result
  .ok { ctx with pc := ctx.pc + 1 }

/-- `handleIsZero` (opcodes.rs). -/
def handleIsZero (ctx : ExecutionContext) : HandlerM ExecutionContext := do
  let (a, ctx) ← popCtx ctx
  let result := if a = 0 then 1 else 0
  let ctx ← pushCtx ctx result
  .ok { ctx with pc := ctx.pc + 1 }

/-- `handleAnd` (opcodes.rs). -/
def handleAnd (ctx : ExecutionContext) : HandlerM ExecutionContext := do
  let (b, ctx) ← popCtx ctx
  let (a, ctx) ← popCtx ctx
  let result := a &&& b
  let ctx ← pushCtx ctx result
  .ok { ctx with pc := ctx.pc + 1 }

/-- `handleOr` (opcodes.rs). -/
def handleOr (ctx : ExecutionContext) : HandlerM ExecutionContext := do
  let (b, ctx) ← popCtx ctx
  let (a, ctx) ← popCtx ctx
  let result := a ||| b
  let ctx ← pushCtx ctx result
  .ok { ctx with pc := ctx.pc + 1 }

/-- `handleXor` (opcodes.rs). -/
def handleXor (ctx : ExecutionContext) : HandlerM ExecutionContext := do
  let (b, ctx) ← popCtx ctx
  let (a, ctx) ← popCtx ctx
  let result := a ^^^ b
  let ctx ← pushCtx ctx result
  .ok { ctx with pc := ctx.pc + 1 }

/-- `handleNot` (opcodes.rs): the 256-bit complement `!a`, which for
`a < 2 ^ 256` equals `2 ^ 256 - 1 - a`. -/
def handleNot (ctx : ExecutionContext) : HandlerM ExecutionContext := do
  let (a, ctx) ← popCtx ctx
  let result := wordModulus - 1 - a
  let ctx ← pushCtx ctx result
  .ok { ctx with pc := ctx.pc + 1 }

/-- `handlePop` (opcodes.rs). -/
def handlePop (ctx : ExecutionContext) : HandlerM ExecutionContext := do
  let (_, ctx) ← popCtx ctx
  .ok { ctx with pc := ctx.pc + 1 }

/-- `handleDup1` (opcodes.rs). -/
def handleDup1 (ctx : ExecutionContext) : HandlerM ExecutionContext := do
  let value ← peekCtx ctx 0
  let ctx ← pushCtx ctx value
  .ok { ctx with pc := ctx.pc + 1 }

/-- `handleDup2` (opcodes.rs). -/
def handleDup2 (ctx : ExecutionContext) : HandlerM ExecutionContext := do
  let value ← peekCtx ctx 1
  let ctx ← pushCtx ctx value
  .ok { ctx with pc := ctx.pc + 1 }

/-- `handleDup3` (opcodes.rs). -/
def handleDup3 (ctx : ExecutionContext) : HandlerM ExecutionContext := do
  let value ← peekCtx ctx 2
  let ctx ← pushCtx ctx value
  .ok { ctx with pc := ctx.pc + 1 }

/-- `handleDup4` (opcodes.rs). -/
def handleDup4 (ctx : ExecutionContext) : HandlerM ExecutionContext := do
  let value ← peekCtx ctx 3
  let ctx ← pushCtx ctx value
  .ok { ctx with pc := ctx.pc + 1 }

/-- `handleSwap1` (opcodes.rs). -/
def handleSwap1 (ctx : ExecutionContext) : HandlerM ExecutionContext := do
  let ctx ← swapCtx ctx 1
  .ok { ctx with pc := ctx.pc + 1 }

/-- `handleSwap2` (opcodes.rs). -/
def handleSwap2 (ctx : ExecutionContext) : HandlerM ExecutionContext := do
  let ctx ← swapCtx ctx 2
  .ok { ctx with pc := ctx.pc + 1 }

/-- `handleSwap3` (opcodes.rs). -/
def handleSwap3 (ctx : ExecutionContext) : HandlerM ExecutionContext := do
  let ctx ← swapCtx ctx 3
  .ok { ctx with pc := ctx.pc + 1 }

/-- `handleSwap4` (opcodes.rs). -/
def handleSwap4 (ctx : ExecutionContext) : HandlerM ExecutionContext := do
  let ctx ← swapCtx ctx 4
  .ok { ctx with pc := ctx.pc + 1 }

/-- `handleMload` (opcodes.rs). -/
def handleMload (ctx : ExecutionContext) : HandlerM ExecutionContext := do
  let (offset, ctx) ← popCtx ctx
  match ctx.memory.load offset with
  | .error e => .error (.MemoryError e, ctx)
  | .ok value =>
    let ctx ← pushCtx ctx value
    .ok { ctx with pc := ctx.pc + 1 }

/-- `handleMstore` (opcodes.rs). -/
def handleMstore (ctx : ExecutionContext) : HandlerM ExecutionContext := do
  let (offset, ctx) ← popCtx ctx
  let (value, ctx) ← popCtx ctx
  match ctx.memory.store offset value with
  | .error e => .error (.MemoryError e, ctx)
  | .ok m =>
    let ctx := { ctx with memory := m }
    .ok { ctx with pc := ctx.pc + 1 }

/-- `handleMstore8` (opcodes.rs): store the low byte `value & 0xff`. -/
def handleMstore8 (ctx : ExecutionContext) : HandlerM ExecutionContext := do
  let (offset, ctx) ← popCtx ctx
  let (value, ctx) ← popCtx ctx
  let byte := value % 256
  let ctx := { ctx with memory := ctx.memory.store_byte offset byte }
  .ok { ctx with pc := ctx.pc + 1 }

/-- `handleMsize` (opcodes.rs). -/
def handleMsize (ctx : ExecutionContext) : HandlerM ExecutionContext := do
  let size := ctx.memory.size
  let ctx ← pushCtx ctx size
  .ok { ctx with pc := ctx.pc + 1 }

/-- `handleJump` (opcodes.rs): fail InvalidJump when the destination is at
or past the end of code or the byte there is not JUMPDEST (0x5b); else set
`pc` to the destination with no post-increment. -/
def handleJump (ctx : ExecutionContext) : HandlerM ExecutionContext := do
  let (dest, ctx) ← popCtx ctx
  if dest ≥ ctx.code.length then
    .error (.InvalidJump, ctx)
  else if ctx.code.getD dest 0 ≠ 0x5b then
    .error (.InvalidJump, ctx)
  else
    .ok { ctx with pc := dest }

/-- `handleJumpi` (opcodes.rs). -/
def handleJumpi (ctx : ExecutionContext) : HandlerM ExecutionContext := do
  let (dest, ctx) ← popCtx ctx
  let (condition, ctx) ← popCtx ctx
  if condition ≠ 0 then
    if dest ≥ ctx.code.length then
      .error (.InvalidJump, ctx)
    else if ctx.code.getD dest 0 ≠ 0x5b then
      .error (.InvalidJump, ctx)
    else
      .ok { ctx with pc := dest }
  else
    .ok { ctx with pc := ctx.pc + 1 }

/-- `handleJumpdest` (opcodes.rs): a no-op that advances `pc`. -/
def handleJumpdest (ctx : ExecutionContext) : HandlerM ExecutionContext :=
  .ok { ctx with pc := ctx.pc + 1 }

/-- `handlePc` (opcodes.rs): push the current `pc`, then advance. -/
def handlePc (ctx : ExecutionContext) : HandlerM ExecutionContext := do
  let pc_value := ctx.pc
  let ctx ← pushCtx ctx pc_value
  .ok { ctx with pc := ctx.pc + 1 }

/-- `handlePush1` (opcodes.rs): push `read_code(1)[0]` — the byte at `pc`
itself — and advance `pc` by 2. -/
def handlePush1 (ctx : ExecutionContext) : HandlerM ExecutionContext := do
  let value_byte := (ctx.read_code 1).getD 0 0
  let ctx ← pushCtx ctx value_byte
  .ok { ctx with pc := ctx.pc + 2 }

/-- `handlePush2` (opcodes.rs). -/
def handlePush2 (ctx : ExecutionContext) : HandlerM ExecutionContext := do
  let value := beDecode (ctx.read_code 2)
  let ctx ← pushCtx ctx value
  .ok { ctx with pc := ctx.pc + 3 }

/-- `handlePush3` (opcodes.rs): the source left-pads the bytes to 32 with
zeros before decoding. -/
def handlePush3 (ctx : ExecutionContext) : HandlerM ExecutionContext := do
  let value := beDecode (List.replicate 29 0 ++ ctx.read_code 3)
  let ctx ← pushCtx ctx value
  .ok { ctx with pc := ctx.pc + 4 }

/-- `handlePush4` (opcodes.rs). -/
def handlePush4 (ctx : ExecutionContext) : HandlerM ExecutionContext := do
  let value := beDecode (List.replicate 28 0 ++ ctx.read_code 4)
  let ctx ← pushCtx ctx value
  .ok { ctx with pc := ctx.pc + 5 }

/-- `handlePush5` (opcodes.rs). -/
def handlePush5 (ctx : ExecutionContext) : HandlerM ExecutionContext := do
  let value := beDecode (List.replicate 27 0 ++ ctx.read_code 5)
  let ctx ← pushCtx ctx value
  .ok { ctx with pc := ctx.pc + 6 }

/-- `handlePush6` (opcodes.rs). -/
def handlePush6 (ctx : ExecutionContext) : HandlerM ExecutionContext := do
  let value := beDecode (List.replicate 26 0 ++ ctx.read_code 6)
  let ctx ← pushCtx ctx value
  .ok { ctx with pc := ctx.pc + 7 }

/-- `handlePush7` (opcodes.rs). -/
def handlePush7 (ctx : ExecutionContext) : HandlerM ExecutionContext := do
  let value := beDecode (List.replicate 25 0 ++ ctx.read_code 7)
  let ctx ← pushCtx ctx value
  .ok { ctx with pc := ctx.pc + 8 }

/-- `handlePush8` (opcodes.rs). -/
def handlePush8 (ctx : ExecutionContext) : HandlerM ExecutionContext := do
  let value := beDecode (List.replicate 24 0 ++ ctx.read_code 8)
  let ctx ← pushCtx ctx value
  .ok { ctx with pc := ctx.pc + 9 }

/-- `handlePush32` (opcodes.rs). -/
def handlePush32 (ctx : ExecutionContext) : HandlerM ExecutionContext := do
  let value := beDecode (ctx.read_code 32)
  let ctx ← pushCtx ctx value
  .ok { ctx with pc := ctx.pc + 33 }

/-- `handleAddress` (opcodes.rs): the 20 address bytes right-aligned in a
32-byte big-endian word. -/
def handleAddress (ctx : ExecutionContext) : HandlerM ExecutionContext := do
  let value := beDecode (List.replicate 12 0 ++ ctx.contractAddress)
  let ctx ← pushCtx ctx value
  .ok { ctx with pc := ctx.pc + 1 }

/-- `handleCaller` (opcodes.rs): stubbed to zero. -/
def handleCaller (ctx : ExecutionContext) : HandlerM ExecutionContext := do
  let ctx ← pushCtx ctx 0
  .ok { ctx with pc := ctx.pc + 1 }

/-- `handleCallvalue` (opcodes.rs): stubbed to zero. -/
def handleCallvalue (ctx : ExecutionContext) : HandlerM ExecutionContext := do
  let ctx ← pushCtx ctx 0
  .ok { ctx with pc := ctx.pc + 1 }

/-- `handleCalldataload` (opcodes.rs). -/
def handleCalldataload (ctx : ExecutionContext) : HandlerM ExecutionContext := do
  let (offset, ctx) ← popCtx ctx
  let value := ctx.calldata.load offset
  let ctx ← pushCtx ctx value
  .ok { ctx with pc := ctx.pc + 1 }

/-- `handleCalldatasize` (opcodes.rs). -/
def handleCalldatasize (ctx : ExecutionContext) : HandlerM ExecutionContext := do
  let size := ctx.calldata.size
  let ctx ← pushCtx ctx size
  .ok { ctx with pc := ctx.pc + 1 }

/-- `handleCalldatacopy` (opcodes.rs): `copy_to_memory` never fails, so
the `map_err(|_| InvalidOpcode)` in the source is dead. -/
def handleCalldatacopy (ctx : ExecutionContext) : HandlerM ExecutionContext := do
  let (mem_offset, ctx) ← popCtx ctx
  let (calldata_offset, ctx) ← popCtx ctx
  let (length, ctx) ← popCtx ctx
  let m := ctx.calldata.copy_to_memory calldata_offset mem_offset length ctx.memory
  let ctx := { ctx with memory := m }
  .ok { ctx with pc := ctx.pc + 1 }

/-- `handleCodesize` (opcodes.rs). -/
def handleCodesize (ctx : ExecutionContext) : HandlerM ExecutionContext := do
  let size := ctx.code.length
  let ctx ← pushCtx ctx size
  .ok { ctx with pc := ctx.pc + 1 }

/-- `handleCodecopy` (opcodes.rs): gather `length` code bytes (zero past
the end) and store them at `mem_offset`. -/
def handleCodecopy (ctx : ExecutionContext) : HandlerM ExecutionContext := do
  let (mem_offset, ctx) ← popCtx ctx
  let (code_offset, ctx) ← popCtx ctx
  let (length, ctx) ← popCtx ctx
  let bytes := (List.range length).map (fun i =>
    if code_offset + i < ctx.code.length then ctx.code.getD (code_offset + i) 0 else 0)
  let ctx := { ctx with memory := ctx.memory.store_bytes mem_offset bytes }
  .ok { ctx with pc := ctx.pc + 1 }

/-- `handleReturn` (opcodes.rs): snapshot the memory range into
`return_data`, halt, and (as in the source) still advance `pc`. -/
def handleReturn (ctx : ExecutionContext) : HandlerM ExecutionContext := do
  let (offset, ctx) ← popCtx ctx
  let (length, ctx) ← popCtx ctx
  let ctx := ctx.set_return_data offset length
  .ok { ctx with pc := ctx.pc + 1 }

/-- `execute_opcode` (opcodes.rs): the dispatch table; bytes with no
handler fail InvalidOpcode. -/
def execute_opcode (opcode : Nat) (ctx : ExecutionContext) : HandlerM ExecutionContext :=
  match opcode with
  | 0x00 => handleStop ctx
  | 0x01 => handleAdd ctx
  | 0x02 => handleMul ctx
  | 0x03 => handleSub ctx
  | 0x04 => handleDiv ctx
  | 0x06 => handleMod ctx
  | 0x0a => handleExp ctx
  | 0x10 => handleLt ctx
  | 0x11 => handleGt ctx
  | 0x14 => handleEq ctx
  | 0x15 => handleIsZero ctx
  | 0x16 => handleAnd ctx
  | 0x17 => handleOr ctx
  | 0x18 => handleXor ctx
  | 0x19 => handleNot ctx
  | 0x50 => handlePop ctx
  | 0x80 => handleDup1 ctx
  | 0x81 => handleDup2 ctx
  | 0x82 => handleDup3 ctx
  | 0x83 => handleDup4 ctx
  | 0x90 => handleSwap1 ctx
  | 0x91 => handleSwap2 ctx
  | 0x92 => handleSwap3 ctx
  | 0x93 => handleSwap4 ctx
  | 0x51 => handleMload ctx
  | 0x52 => handleMstore ctx
  | 0x53 => handleMstore8 ctx
  | 0x59 => handleMsize ctx
  | 0x56 => handleJump ctx
  | 0x57 => handleJumpi ctx
  | 0x5b => handleJumpdest ctx
  | 0x58 => handlePc ctx
  | 0x60 => handlePush1 ctx
  | 0x61 => handlePush2 ctx
  | 0x62 => handlePush3 ctx
  | 0x63 => handlePush4 ctx
  | 0x64 => handlePush5 ctx
  | 0x65 => handlePush6 ctx
  | 0x66 => handlePush7 ctx
  | 0x67 => handlePush8 ctx
  | 0x7f => handlePush32 ctx
  | 0x30 => handleAddress ctx
  | 0x33 => handleCaller ctx
  | 0x34 => handleCallvalue ctx
  | 0x35 => handleCalldataload ctx
  | 0x36 => handleCalldatasize ctx
  | 0x37 => handleCalldatacopy ctx
  | 0x38 => handleCodesize ctx
  | 0x39 => handleCodecopy ctx
  | 0xf3 => handleReturn ctx
  | _ => .error (.InvalidOpcode, ctx)

deriving instance DecidableEq for Except

/-- One driver-visible operation on the operand stack (the public surface
of stack.rs), for stating trace invariants. -/
inductive StackOp where
  | pushOp (w : Nat)
  | popOp
  | peekOp (i : Nat)
  | swapOp (n : Nat)

/-- Apply one stack operation; a failing operation leaves the stack as it
was, since every stack.rs method checks before mutating `self`. -/
def applyOp (s : Stack) (op : StackOp) : Stack :=
  match op with
  | .pushOp w =>
    match s.push w with
    | .ok s' => s'
    | .error _ => s
  | .popOp =>
    match s.pop with
    | .ok r => r.2
    | .error _ => s
  | .peekOp _ => s
  | .swapOp n =>
    match s.swap n with
    | .ok s' => s'
    | .error _ => s

/-- Run a sequence of stack operations from the freshly created stack. -/
def runOps (ops : List StackOp) : Stack :=
  ops.foldl applyOp Stack.new

/-- A 20-byte zero address for concrete executions. -/
def addrZero : List Nat := List.replicate 20 0

/-- A fresh context whose code is a single POP. -/
def ctxPop : ExecutionContext := ExecutionContext.new addrZero [0x50] []

/-- A context about to JUMP to destination 5, past the end of its one-byte
code. -/
def ctxJumpBad : ExecutionContext :=
  { ExecutionContext.new addrZero [0x00] [] with stack := ⟨[5], MAX_DEPTH⟩ }

/-- A context about to JUMP to destination 1, a JUMPDEST byte. -/
def ctxJumpGood : ExecutionContext :=
  { ExecutionContext.new addrZero [0x00, 0x5b] [] with stack := ⟨[1], MAX_DEPTH⟩ }

/-- A context with operand stack `[3, 2]` (3 on top). -/
def ctxArith : ExecutionContext :=
  { ExecutionContext.new addrZero [] [] with stack := ⟨[3, 2], MAX_DEPTH⟩ }

/-- A context with operand stack `[0, 7]` (zero divisor on top). -/
def ctxDivZero : ExecutionContext :=
  { ExecutionContext.new addrZero [] [] with stack := ⟨[0, 7], MAX_DEPTH⟩ }

/-- A context with operand stack `[1, 2]` (1 on top). -/
def ctxAddDemo : ExecutionContext :=
  { ExecutionContext.new addrZero [] [] with stack := ⟨[1, 2], MAX_DEPTH⟩ }

/-- A fresh context whose code is `PUSH1 05`. -/
def ctxPush1 : ExecutionContext := ExecutionContext.new addrZero [0x60, 0x05] []

/-- A fresh context whose code starts with the PUSH9 byte `0x68` followed
by nine immediate bytes. -/
def ctxPush9 : ExecutionContext :=
  ExecutionContext.new addrZero [0x68, 1, 2, 3, 4, 5, 6, 7, 8, 9] []

/-- The word modulus is positive. -/
theorem wordModulus_pos : 0 < wordModulus := by
  unfold wordModulus
  positivity

/-- The word modulus exceeds one. -/
theorem one_lt_wordModulus : 1 < wordModulus := by
  unfold wordModulus
  norm_num

/-- A failing `popCtx` happens exactly on an empty stack and returns the
untouched context with `StackUnderflow`. -/
theorem popCtx_eq_error (ctx : ExecutionContext) (p : InstructionError × ExecutionContext) :
    popCtx ctx = .error p ↔
      ctx.stack.data = [] ∧ p = (.StackError .StackUnderflow, ctx) := by
  unfold popCtx Stack.pop
  cases h : ctx.stack.data <;> simp_all [eq_comm]

/-- A successful `popCtx` returns the head word and the context with the
stack tail. -/
theorem popCtx_eq_ok (ctx : ExecutionContext) (pr : Nat × ExecutionContext) :
    popCtx ctx = .ok pr ↔
      ctx.stack.data ≠ [] ∧
        pr = (ctx.stack.data.headD 0,
          { ctx with stack := ⟨ctx.stack.data.tail, ctx.stack.max_depth⟩ }) := by
  unfold popCtx Stack.pop
  cases h : ctx.stack.data <;> simp_all [eq_comm]

/-- A failing `pushCtx` happens exactly at the depth bound and returns the
untouched context with `StackOverflow`. -/
theorem pushCtx_eq_error (ctx : ExecutionContext) (v : Nat)
    (p : InstructionError × ExecutionContext) :
    pushCtx ctx v = .error p ↔
      ctx.stack.max_depth ≤ ctx.stack.data.length ∧
        p = (.StackError .StackOverflow, ctx) := by
  unfold pushCtx Stack.push
  by_cases hc : ctx.stack.data.length ≥ ctx.stack.max_depth <;> simp [hc, eq_comm]

/-- A successful `pushCtx` appends the word at the top of the stack. -/
theorem pushCtx_eq_ok (ctx : ExecutionContext) (v : Nat) (ctx2 : ExecutionContext) :
    pushCtx ctx v = .ok ctx2 ↔
      ctx.stack.data.length < ctx.stack.max_depth ∧
        ctx2 = { ctx with stack := ⟨v :: ctx.stack.data, ctx.stack.max_depth⟩ } := by
  unfold pushCtx Stack.push
  by_cases hc : ctx.stack.data.length ≥ ctx.stack.max_depth
  · have hn : ¬ ctx.stack.data.length < ctx.stack.max_depth := by omega
    simp [hc, hn]
  · have hlt : ctx.stack.data.length < ctx.stack.max_depth := by omega
    simp [hc, hlt, eq_comm]

/-- A failing `peekCtx` happens exactly on an out-of-range index and
returns the untouched context with `IndexError`. -/
theorem peekCtx_eq_error (ctx : ExecutionContext) (i : Nat)
    (p : InstructionError × ExecutionContext) :
    peekCtx ctx i = .error p ↔
      ctx.stack.data.length ≤ i ∧ p = (.StackError .IndexError, ctx) := by
  unfold peekCtx Stack.peek
  by_cases hc : i ≥ ctx.stack.data.length <;> simp [hc, eq_comm]

/-- A successful `peekCtx` reads the word `i` positions below the top. -/
theorem peekCtx_eq_ok (ctx : ExecutionContext) (i : Nat) (v : Nat) :
    peekCtx ctx i = .ok v ↔
      i < ctx.stack.data.length ∧ v = ctx.stack.data.getD i 0 := by
  unfold peekCtx Stack.peek
  by_cases hc : i ≥ ctx.stack.data.length <;> simp [hc, eq_comm] <;> omega

/-- A failing `swapCtx` happens exactly on a stack shallower than `n + 1`. -/
theorem swapCtx_eq_error (ctx : ExecutionContext) (n : Nat)
    (p : InstructionError × ExecutionContext) :
    swapCtx ctx n = .error p ↔
      ctx.stack.data.length < n + 1 ∧ p = (.StackError .StackOverflow, ctx) := by
  unfold swapCtx Stack.swap
  by_cases hc : n + 1 > ctx.stack.data.length <;> simp [hc, eq_comm]

/-- A successful `swapCtx` exchanges the top with position `n`. -/
theorem swapCtx_eq_ok (ctx : ExecutionContext) (n : Nat) (ctx2 : ExecutionContext) :
    swapCtx ctx n = .ok ctx2 ↔
      n + 1 ≤ ctx.stack.data.length ∧
        ctx2 = { ctx with stack := ⟨listSwap ctx.stack.data 0 n, ctx.stack.max_depth⟩ } := by
  unfold swapCtx Stack.swap
  by_cases hc : n + 1 > ctx.stack.data.length <;> simp [hc, eq_comm] <;> omega

/-- `Memory::load` never returns an error. -/
theorem memory_load_ne_error (m : Memory) (offset : Nat) (e : MemoryError) :
    ¬ Memory.load m offset = .error e := by
  by_cases hc : offset + 32 > m.memory.length <;> simp [Memory.load, hc]

/-- `Memory::store` never returns an error. -/
theorem memory_store_ne_error (m : Memory) (offset v : Nat) (e : MemoryError) :
    ¬ Memory.store m offset v = .error e := by
  unfold Memory.store
  simp

/-- The (always successful) result of `Memory::store`. -/
theorem memory_store_eq_ok (m : Memory) (offset v : Nat) (m2 : Memory) :
    Memory.store m offset v = .ok m2 ↔
      m2 = ⟨writeBytes (resizeZero m.memory (offset + 32)) offset (beBytes32 v)⟩ := by
  unfold Memory.store
  simp [eq_comm]

/-- The square-and-multiply loop computes modular exponentiation: starting
from an accumulator below the modulus, it returns
`r * b ^ e mod 2 ^ 256`. -/
theorem expLoop_eq (e : Nat) : ∀ r b : Nat, r < wordModulus →
    expLoop r b e = r * b ^ e % wordModulus := by
  induction e using Nat.strong_induction_on with
  | _ e ih =>
    intro r b hr
    rw [expLoop]
    by_cases he : e = 0
    · simp [he, Nat.mod_eq_of_lt hr]
    · simp only [he, if_false]
      have hdiv : e / 2 < e := Nat.div_lt_self (Nat.pos_of_ne_zero he) one_lt_two
      by_cases hodd : e % 2 = 1
      · rw [if_pos hodd,
          ih (e / 2) hdiv _ _ (Nat.mod_lt _ wordModulus_pos)]
        have h1 : (r * b % wordModulus) * ((b * b % wordModulus) ^ (e / 2)) ≡
            r * b ^ (2 * (e / 2) + 1) [MOD wordModulus] := by
          calc (r * b % wordModulus) * ((b * b % wordModulus) ^ (e / 2))
              ≡ (r * b) * ((b * b) ^ (e / 2)) [MOD wordModulus] :=
                Nat.ModEq.mul (Nat.mod_modEq _ _) (Nat.ModEq.pow _ (Nat.mod_modEq _ _))
            _ = r * b ^ (2 * (e / 2) + 1) := by ring
        have he2 : e = 2 * (e / 2) + 1 := by omega
        rw [← he2] at h1
        exact h1
      · rw [if_neg hodd, ih (e / 2) hdiv _ _ hr]
        have h1 : r * ((b * b % wordModulus) ^ (e / 2)) ≡
            r * b ^ (2 * (e / 2)) [MOD wordModulus] := by
          calc r * ((b * b % wordModulus) ^ (e / 2))
              ≡ r * ((b * b) ^ (e / 2)) [MOD wordModulus] :=
                Nat.ModEq.mul (Nat.ModEq.refl r) (Nat.ModEq.pow _ (Nat.mod_modEq _ _))
            _ = r * b ^ (2 * (e / 2)) := by ring
        have he2 : e = 2 * (e / 2) := by omega
        rw [← he2] at h1
        exact h1

/-- The case analysis of `handleExp` collapses to `a ^ b mod 2 ^ 256`,
including `a ^ 0 = 1` and `0 ^ 0 = 1`. -/
theorem exp_result (a b : Nat) :
    (if b = 0 then 1 else if a = 0 then 0 else expLoop 1 a b) = a ^ b % wordModulus := by
  by_cases hb : b = 0
  · simp [hb, Nat.mod_eq_of_lt one_lt_wordModulus]
  · by_cases ha : a = 0
    · simp [ha, hb, Nat.zero_pow (Nat.pos_of_ne_zero hb)]
    · rw [if_neg hb, if_neg ha, expLoop_eq b 1 a one_lt_wordModulus, one_mul]

/-- A successful `Stack::push` appends the word at the top. -/
theorem stack_push_eq_ok (s : Stack) (w : Nat) (s2 : Stack) :
    s.push w = .ok s2 ↔ s.data.length < s.max_depth ∧ s2 = ⟨w :: s.data, s.max_depth⟩ := by
  unfold Stack.push
  by_cases hc : s.data.length ≥ s.max_depth
  · have hn : ¬ s.data.length < s.max_depth := by omega
    simp [hc, hn]
  · have hlt : s.data.length < s.max_depth := by omega
    simp [hc, hlt, eq_comm]

/-- A failing `Stack::push` happens exactly at the depth bound. -/
theorem stack_push_eq_error (s : Stack) (w : Nat) (e : StackError) :
    s.push w = .error e ↔ s.max_depth ≤ s.data.length ∧ e = .StackOverflow := by
  unfold Stack.push
  by_cases hc : s.data.length ≥ s.max_depth <;> simp [hc, eq_comm]

/-- Every single stack operation keeps the depth bound and the configured
maximum untouched. -/
theorem applyOp_preserves (s : Stack) (op : StackOp) (h1 : s.max_depth = MAX_DEPTH)
    (h2 : s.data.length ≤ MAX_DEPTH) :
    (applyOp s op).max_depth = MAX_DEPTH ∧ (applyOp s op).data.length ≤ MAX_DEPTH := by
  cases op with
  | pushOp w =>
    simp only [applyOp]
    cases hp : s.push w with
    | error e => exact ⟨h1, h2⟩
    | ok s2 =>
      rw [stack_push_eq_ok] at hp
      obtain ⟨hlt, rfl⟩ := hp
      refine ⟨h1, ?_⟩
      simp
      omega
  | popOp =>
    simp only [applyOp]
    cases hp : s.pop with
    | error e => exact ⟨h1, h2⟩
    | ok r =>
      unfold Stack.pop at hp
      cases hd : s.data with
      | nil => rw [hd] at hp; simp at hp
      | cons v rest =>
        rw [hd] at hp
        simp at hp
        rw [← hp]
        refine ⟨h1, ?_⟩
        have : s.data.length = rest.length + 1 := by rw [hd]; simp
        simp
        omega
  | peekOp i => exact ⟨h1, h2⟩
  | swapOp n =>
    simp only [applyOp]
    cases hp : s.swap n with
    | error e => exact ⟨h1, h2⟩
    | ok s2 =>
      unfold Stack.swap at hp
      by_cases hc : n + 1 > s.data.length
      · rw [if_pos hc] at hp; simp at hp
      · rw [if_neg hc] at hp
        simp at hp
        rw [← hp]
        refine ⟨h1, ?_⟩
        simp [listSwap]
        omega

/-- Any operation sequence started on the fresh stack keeps the depth at
or below `MAX_DEPTH` and the configured maximum at `MAX_DEPTH`. -/
theorem runOps_inv (ops : List StackOp) :
    (runOps ops).max_depth = MAX_DEPTH ∧ (runOps ops).data.length ≤ MAX_DEPTH := by
  unfold runOps
  have h : ∀ s : Stack, s.max_depth = MAX_DEPTH → s.data.length ≤ MAX_DEPTH →
      (ops.foldl applyOp s).max_depth = MAX_DEPTH ∧
        (ops.foldl applyOp s).data.length ≤ MAX_DEPTH := by
    induction ops with
    | nil => intro s h1 h2; exact ⟨h1, h2⟩
    | cons op rest ih =>
      intro s h1 h2
      obtain ⟨g1, g2⟩ := applyOp_preserves s op h1 h2
      exact ih (applyOp s op) g1 g2
  exact h Stack.new rfl (by simp [Stack.new])

/-- An in-range defaulted-index window over a list is the corresponding
contiguous slice. -/
theorem getD_window_eq (l : List Nat) (off n : Nat) (h : off + n ≤ l.length) :
    (List.range n).map (fun i => l.getD (off + i) 0) = (l.drop off).take n := by
  apply List.ext_getElem
  · simp
    omega
  · intro i h1 h2
    simp only [List.getElem_map, List.getElem_range, List.getElem_take, List.getElem_drop]
    rw [List.getD_eq_getElem l 0 (by simp at h1; omega)]

/-- C1: the claim fails on the code. With `pc` at the PUSH1 opcode byte of
`PUSH1 05`, the handler pushes `0x60` — the opcode byte itself, because
`read_code` reads starting at `pc` — instead of the immediate `0x05`;
`pc` does advance by 2 as claimed. Moreover the PUSH9 byte `0x68` is not
dispatched at all and fails InvalidOpcode, so the claim also fails for
every `n ∈ [9, 31]`. -/
theorem push_handler_reads_opcode_byte :
    execute_opcode 0x60 ctxPush1 =
      .ok { ctxPush1 with stack := ⟨[0x60], MAX_DEPTH⟩, pc := 2 } ∧
    execute_opcode 0x68 ctxPush9 = .error (.InvalidOpcode, ctxPush9) := by
  decide

/-- C2 counterexample: executing POP on a fresh context with an empty
stack returns a StackUnderflow error, yet the context left behind still
has `halted = false` — refuting the claim that a failing handler leaves
the context halted. -/
theorem pop_error_leaves_context_unhalted :
    execute_opcode 0x50 ctxPop = .error (.StackError .StackUnderflow, ctxPop) ∧
    ctxPop.stopped = false := by
  decide

set_option maxHeartbeats 2000000 in
/-- C2 (amended): whenever a handler invoked through `execute_opcode`
returns an error, the halted flag and the return data of the context it
leaves behind are exactly what they were before the step; the handler
itself never halts the context on error. -/
theorem execute_error_preserves_halt_state (op : Nat) (ctx : ExecutionContext)
    (err : InstructionError) (ctx' : ExecutionContext)
    (h : execute_opcode op ctx = .error (err, ctx')) :
    ctx'.stopped = ctx.stopped ∧ ctx'.return_data = ctx.return_data := by
  unfold execute_opcode at h
  split at h <;>
    (try simp only [handleStop, handleAdd, handleMul, handleSub, handleDiv, handleMod,
      handleExp, handleLt, handleGt, handleEq, handleIsZero, handleAnd, handleOr,
      handleXor, handleNot, handlePop, handleDup1, handleDup2, handleDup3, handleDup4,
      handleSwap1, handleSwap2, handleSwap3, handleSwap4, handleMload, handleMstore,
      handleMstore8, handleMsize, handleJump, handleJumpi, handleJumpdest, handlePc,
      handlePush1, handlePush2, handlePush3, handlePush4, handlePush5, handlePush6,
      handlePush7, handlePush8, handlePush32, handleAddress, handleCaller,
      handleCallvalue, handleCalldataload, handleCalldatasize, handleCalldatacopy,
      handleCodesize, handleCodecopy, handleReturn,
      ExecutionContext.stop, ExecutionContext.set_return_data, bind, Except.bind] at h) <;>
    (repeat' split at h) <;>
    (try simp_all [popCtx_eq_error, popCtx_eq_ok, pushCtx_eq_error, pushCtx_eq_ok,
      peekCtx_eq_error, peekCtx_eq_ok, swapCtx_eq_error, swapCtx_eq_ok,
      memory_load_ne_error, memory_store_ne_error, memory_store_eq_ok]) <;>
    (try (obtain ⟨h1, h2⟩ := h; subst h2; simp))

/-- C2 witness: a failing JUMP (destination past the end of code) leaves
the halted flag and return data of the resulting context unchanged. -/
theorem execute_error_preserves_halt_state_witness :
    ({ ctxJumpBad with stack := (⟨[], MAX_DEPTH⟩ : Stack) }).stopped = ctxJumpBad.stopped ∧
    ({ ctxJumpBad with stack := (⟨[], MAX_DEPTH⟩ : Stack) }).return_data =
      ctxJumpBad.return_data :=
  execute_error_preserves_halt_state 0x56 ctxJumpBad .InvalidJump
    { ctxJumpBad with stack := ⟨[], MAX_DEPTH⟩ } (by decide)

/-- C3: with destination word `dest` on top of the stack (representable in
the platform size type), JUMP fails with InvalidJump exactly when `dest`
is at or past the end of code or the byte there is not `0x5B`; otherwise
it sets `pc = dest` with no post-increment, and in both cases the rest of
the context is unchanged apart from the popped word. -/
theorem jump_validates_destination (ctx : ExecutionContext) (dest : Nat) (rest : List Nat)
    (hs : ctx.stack.data = dest :: rest) (hdest : dest < 2 ^ 64) :
    (ctx.code.length ≤ dest ∨ ctx.code.getD dest 0 ≠ 0x5b →
      execute_opcode 0x56 ctx =
        .error (.InvalidJump, { ctx with stack := ⟨rest, ctx.stack.max_depth⟩ })) ∧
    (dest < ctx.code.length → ctx.code.getD dest 0 = 0x5b →
      execute_opcode 0x56 ctx =
        .ok { ctx with stack := ⟨rest, ctx.stack.max_depth⟩, pc := dest }) := by
  constructor
  · intro hbad
    by_cases h1 : ctx.code.length ≤ dest
    · simp [execute_opcode, handleJump, bind, Except.bind, popCtx, Stack.pop, hs, h1]
    · have h2 : ctx.code.getD dest 0 ≠ 0x5b := by
        rcases hbad with hb | hb
        · omega
        · exact hb
      rw [List.getD_eq_getElem?_getD] at h2
      simp [execute_opcode, handleJump, bind, Except.bind, popCtx, Stack.pop, List.getD,
        hs, h1, h2]
  · intro h1 h2
    rw [List.getD_eq_getElem?_getD] at h2
    simp [execute_opcode, handleJump, bind, Except.bind, popCtx, Stack.pop, List.getD,
      hs, h2, show ¬ ctx.code.length ≤ dest from by omega]

/-- C3 witness: a JUMP to destination 1, where the code byte is the
JUMPDEST `0x5B`, succeeds and sets `pc = 1`. -/
theorem jump_validates_destination_witness :
    execute_opcode 0x56 ctxJumpGood =
      .ok { ctxJumpGood with stack := ⟨[], ctxJumpGood.stack.max_depth⟩, pc := 1 } :=
  (jump_validates_destination ctxJumpGood 1 [] (by decide) (by norm_num)).2
    (by decide) (by decide)

set_option maxHeartbeats 1000000 in
/-- C4: with `b` on top and `a` below, ADD pushes `(a+b) mod 2^256`,
SUB pushes `(a-b) mod 2^256` (as integers), MUL pushes `(a*b) mod 2^256`,
and EXP (base `a`, exponent `b`) pushes `a^b mod 2^256`, with
`a^0 = 1` including `0^0 = 1`; each advances `pc` by 1. -/
theorem arith_handlers_wrap_mod_word (ctx : ExecutionContext) (a b : Nat) (rest : List Nat)
    (hs : ctx.stack.data = b :: a :: rest)
    (hlen : ctx.stack.data.length ≤ ctx.stack.max_depth)
    (ha : a < wordModulus) (hb : b < wordModulus) :
    execute_opcode 0x01 ctx = .ok { ctx with
      stack := ⟨((a + b) % wordModulus) :: rest, ctx.stack.max_depth⟩, pc := ctx.pc + 1 } ∧
    execute_opcode 0x03 ctx = .ok { ctx with
      stack := ⟨(((a : Int) - b) % (wordModulus : Int)).toNat :: rest, ctx.stack.max_depth⟩,
      pc := ctx.pc + 1 } ∧
    execute_opcode 0x02 ctx = .ok { ctx with
      stack := ⟨(a * b % wordModulus) :: rest, ctx.stack.max_depth⟩, pc := ctx.pc + 1 } ∧
    execute_opcode 0x0a ctx = .ok { ctx with
      stack := ⟨(a ^ b % wordModulus) :: rest, ctx.stack.max_depth⟩, pc := ctx.pc + 1 } := by
  have hpush : ¬ (ctx.stack.max_depth ≤ rest.length) := by
    rw [hs] at hlen
    simp at hlen
    omega
  have hsub : (wordModulus + a - b) % wordModulus =
      (((a : Int) - b) % (wordModulus : Int)).toNat := by
    have hb2 : b < 2 ^ 256 := by
      rw [wordModulus] at hb
      exact hb
    simp only [wordModulus]
    omega
  refine ⟨?_, ?_, ?_, ?_⟩
  · simp [execute_opcode, handleAdd, bind, Except.bind, popCtx, pushCtx, Stack.pop,
      Stack.push, hs, hpush]
  · rw [← hsub]
    simp [execute_opcode, handleSub, bind, Except.bind, popCtx, pushCtx, Stack.pop,
      Stack.push, hs, hpush]
  · simp [execute_opcode, handleMul, bind, Except.bind, popCtx, pushCtx, Stack.pop,
      Stack.push, hs, hpush]
  · rw [show a ^ b % wordModulus = (if b = 0 then 1 else if a = 0 then 0 else expLoop 1 a b)
      from (exp_result a b).symm]
    simp [execute_opcode, handleExp, bind, Except.bind, popCtx, pushCtx, Stack.pop,
      Stack.push, hs, hpush]

/-- C4 witness: on the stack `[3, 2]` (3 on top) ADD pushes
`(2+3) mod 2^256`, SUB pushes `(2-3) mod 2^256`, MUL pushes
`(2*3) mod 2^256`, and EXP pushes `2^3 mod 2^256`. -/
theorem arith_handlers_wrap_mod_word_witness :
    execute_opcode 0x01 ctxArith = .ok { ctxArith with
      stack := ⟨((2 + 3) % wordModulus) :: [], ctxArith.stack.max_depth⟩,
      pc := ctxArith.pc + 1 } ∧
    execute_opcode 0x03 ctxArith = .ok { ctxArith with
      stack := ⟨(((2 : Int) - 3) % (wordModulus : Int)).toNat :: [], ctxArith.stack.max_depth⟩,
      pc := ctxArith.pc + 1 } ∧
    execute_opcode 0x02 ctxArith = .ok { ctxArith with
      stack := ⟨(2 * 3 % wordModulus) :: [], ctxArith.stack.max_depth⟩,
      pc := ctxArith.pc + 1 } ∧
    execute_opcode 0x0a ctxArith = .ok { ctxArith with
      stack := ⟨(2 ^ 3 % wordModulus) :: [], ctxArith.stack.max_depth⟩,
      pc := ctxArith.pc + 1 } :=
  arith_handlers_wrap_mod_word ctxArith 2 3 [] (by decide) (by decide)
    (by norm_num [wordModulus]) (by norm_num [wordModulus])

/-- C5: the claim fails on the code. `Stack::swap(1)` on a stack of depth
1 fails, but with the `StackOverflow` kind rather than the
`StackUnderflow` the claim (and the spec) require; the success case does
exchange the top with the `(n+1)`-th element as claimed. -/
theorem swap_underflow_reports_overflow :
    Stack.swap ⟨[7], MAX_DEPTH⟩ 1 = .error .StackOverflow ∧
    Stack.swap ⟨[5, 6, 7], MAX_DEPTH⟩ 1 = .ok ⟨[6, 5, 7], MAX_DEPTH⟩ := by
  decide

set_option maxHeartbeats 1000000 in
/-- C6: with divisor (respectively modulus) 0 on top of the stack and `a`
below, DIV and MOD each push 0, succeed, and advance `pc` by 1. -/
theorem div_mod_by_zero_push_zero (ctx : ExecutionContext) (a : Nat) (rest : List Nat)
    (hs : ctx.stack.data = 0 :: a :: rest)
    (hlen : ctx.stack.data.length ≤ ctx.stack.max_depth) :
    execute_opcode 0x04 ctx = .ok { ctx with
      stack := ⟨0 :: rest, ctx.stack.max_depth⟩, pc := ctx.pc + 1 } ∧
    execute_opcode 0x06 ctx = .ok { ctx with
      stack := ⟨0 :: rest, ctx.stack.max_depth⟩, pc := ctx.pc + 1 } := by
  have hpush : ¬ (ctx.stack.max_depth ≤ rest.length) := by
    rw [hs] at hlen
    simp at hlen
    omega
  constructor
  · simp [execute_opcode, handleDiv, bind, Except.bind, popCtx, pushCtx, Stack.pop,
      Stack.push, hs, hpush]
  · simp [execute_opcode, handleMod, bind, Except.bind, popCtx, pushCtx, Stack.pop,
      Stack.push, hs, hpush]

/-- C6 witness: `7 DIV 0` and `7 MOD 0` both push 0 and succeed. -/
theorem div_mod_by_zero_push_zero_witness :
    execute_opcode 0x04 ctxDivZero = .ok { ctxDivZero with
      stack := ⟨0 :: [], ctxDivZero.stack.max_depth⟩, pc := ctxDivZero.pc + 1 } ∧
    execute_opcode 0x06 ctxDivZero = .ok { ctxDivZero with
      stack := ⟨0 :: [], ctxDivZero.stack.max_depth⟩, pc := ctxDivZero.pc + 1 } :=
  div_mod_by_zero_push_zero ctxDivZero 7 [] (by decide) (by decide)

/-- C7: along any sequence of stack operations from the fresh stack the
depth never exceeds 1024; push succeeds and appends exactly when the
depth is below 1024, fails with StackOverflow exactly when the depth is
1024 (so a 1025th consecutive push always fails), and a failing push
leaves the stack unchanged. -/
theorem stack_depth_bound (ops : List StackOp) (w : Nat) :
    (runOps ops).data.length ≤ 1024 ∧
    ((runOps ops).data.length < 1024 →
      (runOps ops).push w = .ok ⟨w :: (runOps ops).data, (runOps ops).max_depth⟩) ∧
    ((runOps ops).push w = .error .StackOverflow ↔ (runOps ops).data.length = 1024) ∧
    ((runOps ops).data.length = 1024 → applyOp (runOps ops) (.pushOp w) = runOps ops) := by
  obtain ⟨h1, h2⟩ := runOps_inv ops
  rw [MAX_DEPTH] at h1 h2
  refine ⟨h2, ?_, ?_, ?_⟩
  · intro hlt
    rw [stack_push_eq_ok]
    exact ⟨by omega, rfl⟩
  · constructor
    · intro he
      rw [stack_push_eq_error] at he
      omega
    · intro he
      unfold Stack.push
      rw [if_pos (by omega)]
  · intro he
    simp only [applyOp]
    cases hp : (runOps ops).push w with
    | error e => rfl
    | ok s2 =>
      rw [stack_push_eq_ok] at hp
      omega

/-- C7 witness: on the empty trace the depth bound holds and a push on the
fresh stack succeeds. -/
theorem stack_depth_bound_witness :
    (runOps []).data.length ≤ 1024 ∧
      (runOps []).push 0 = .ok ⟨0 :: (runOps []).data, (runOps []).max_depth⟩ :=
  ⟨(stack_depth_bound [] 0).1, (stack_depth_bound [] 0).2.1 (by decide)⟩

/-- C8: `Memory::load` returns the big-endian word over the 32 bytes at
`[offset, offset+32)` when `offset+32 ≤ msize`, and the zero word whenever
`offset+32 > msize` (even if part of the range is in bounds); both
branches succeed, so it never fails (and, being a read-only borrow, it
cannot change `msize`). -/
theorem memory_load_zero_fill (m : Memory) (offset : Nat) :
    (offset + 32 ≤ m.memory.length →
      m.load offset = .ok (beDecode ((m.memory.drop offset).take 32))) ∧
    (m.memory.length < offset + 32 → m.load offset = .ok 0) := by
  constructor
  · intro h
    unfold Memory.load
    rw [if_neg (by omega), getD_window_eq m.memory offset 32 h]
  · intro h
    unfold Memory.load
    rw [if_pos (by omega)]

/-- C8 witness: an in-range load returns the decoded slice, and a load on
empty memory returns zero. -/
theorem memory_load_zero_fill_witness :
    (Memory.mk (List.replicate 32 7)).load 0 =
      .ok (beDecode (((List.replicate 32 7 : List Nat).drop 0).take 32)) ∧
    Memory.new.load 0 = .ok 0 :=
  ⟨(memory_load_zero_fill ⟨List.replicate 32 7⟩ 0).1 (by decide),
   (memory_load_zero_fill Memory.new 0).2 (by decide)⟩

set_option maxHeartbeats 2000000 in
/-- C9: every arithmetic, comparison, and bitwise handler (ADD, MUL, SUB,
DIV, MOD, EXP, LT, GT, EQ, ISZERO, AND, OR, XOR, NOT) that succeeds leaves
the memory, calldata, code, contract address, halted flag, and return data
of the context exactly as they were — only the stack and `pc` change. -/
theorem arith_handlers_preserve_frame (op : Nat)
    (hop : op ∈ [0x01, 0x02, 0x03, 0x04, 0x06, 0x0a, 0x10, 0x11, 0x14, 0x15,
      0x16, 0x17, 0x18, 0x19])
    (ctx ctx' : ExecutionContext) (h : execute_opcode op ctx = .ok ctx') :
    ctx'.memory = ctx.memory ∧ ctx'.calldata = ctx.calldata ∧ ctx'.code = ctx.code ∧
      ctx'.contractAddress = ctx.contractAddress ∧ ctx'.stopped = ctx.stopped ∧
      ctx'.return_data = ctx.return_data := by
  fin_cases hop <;>
    simp only [execute_opcode, handleAdd, handleMul, handleSub, handleDiv, handleMod,
      handleExp, handleLt, handleGt, handleEq, handleIsZero, handleAnd, handleOr,
      handleXor, handleNot, bind, Except.bind] at h <;>
    (repeat' split at h) <;>
    (try simp_all [popCtx_eq_error, popCtx_eq_ok, pushCtx_eq_error, pushCtx_eq_ok]) <;>
    (try (subst h; simp))

/-- C9 witness: a successful ADD on the stack `[1, 2]` changes only the
stack and `pc`. -/
theorem arith_handlers_preserve_frame_witness :
    ({ ctxAddDemo with stack := (⟨[3], MAX_DEPTH⟩ : Stack), pc := 1 }).memory =
        ctxAddDemo.memory ∧
      ({ ctxAddDemo with stack := (⟨[3], MAX_DEPTH⟩ : Stack), pc := 1 }).calldata =
        ctxAddDemo.calldata ∧
      ({ ctxAddDemo with stack := (⟨[3], MAX_DEPTH⟩ : Stack), pc := 1 }).code =
        ctxAddDemo.code ∧
      ({ ctxAddDemo with stack := (⟨[3], MAX_DEPTH⟩ : Stack), pc := 1 }).contractAddress =
        ctxAddDemo.contractAddress ∧
      ({ ctxAddDemo with stack := (⟨[3], MAX_DEPTH⟩ : Stack), pc := 1 }).stopped =
        ctxAddDemo.stopped ∧
      ({ ctxAddDemo with stack := (⟨[3], MAX_DEPTH⟩ : Stack), pc := 1 }).return_data =
        ctxAddDemo.return_data :=
  arith_handlers_preserve_frame 0x01 (by decide) ctxAddDemo
    { ctxAddDemo with stack := ⟨[3], MAX_DEPTH⟩, pc := 1 } (by decide)

/-- C10: on a stack below the 1024-word bound, push succeeds and appends
the word, and an immediately following pop returns that word and restores
the original stack. -/
theorem push_pop_roundtrip (s : Stack) (w : Nat) (hmd : s.max_depth = MAX_DEPTH)
    (hlen : s.data.length < 1024) :
    s.push w = .ok ⟨w :: s.data, s.max_depth⟩ ∧
    Stack.pop ⟨w :: s.data, s.max_depth⟩ = .ok (w, s) := by
  constructor
  · rw [stack_push_eq_ok]
    exact ⟨by rw [hmd, MAX_DEPTH]; omega, rfl⟩
  · rfl

/-- C10 witness: pushing 5 on the empty stack and popping returns 5 and
the empty stack. -/
theorem push_pop_roundtrip_witness :
    Stack.push ⟨[], MAX_DEPTH⟩ 5 = .ok ⟨5 :: [], MAX_DEPTH⟩ ∧
    Stack.pop ⟨5 :: [], MAX_DEPTH⟩ = .ok (5, ⟨[], MAX_DEPTH⟩) :=
  push_pop_roundtrip ⟨[], MAX_DEPTH⟩ 5 rfl (by decide)
